import Mathlib

/-!
Verification of the Ace1Poker-Rate USDT/MYR spread-monitoring core.

Rates and spreads are embedded as exact rationals (`ℚ`), timestamps as
integers (milliseconds since the epoch, `ℤ`).  Each definition below is a
direct translation of one function of the TypeScript source; the file then
proves or refutes the frozen specification claims about them.
-/

/-- `Math.abs` on the embedded rationals. -/
def mathAbs (x : ℚ) : ℚ := if x < 0 then -x else x

/-- The four ordered risk levels of the monitor
(`'safe' | 'warning' | 'danger' | 'critical'`). -/
inductive RiskLevel
  | safe
  | warning
  | danger
  | critical
deriving DecidableEq, Repr

/-- The ordinal used by the daily rollup to compare risk levels
(`const riskOrder = { safe: 0, warning: 1, danger: 2, critical: 3 }`
in `HistoryTable.tsx`). -/
def riskOrder : RiskLevel → ℕ
  | .safe => 0
  | .warning => 1
  | .danger => 2
  | .critical => 3

/-- `calculateRiskLevel` of `rateUtils` (the parameterless variant used by
`useRateFetcher`, `CurrentRateCard` and `AlertSystem`): thresholds are
hardcoded; every comparison is against `Math.abs(diff)`. -/
def calculateRiskLevel (diff : ℚ) (isLockWindow : Bool)
    (consecutiveExpansions : ℕ) : RiskLevel :=
  let absSpread := mathAbs diff
  if 8/100 ≤ absSpread then RiskLevel.critical
  else if isLockWindow = true ∧ 2 ≤ consecutiveExpansions ∧ 4/100 ≤ absSpread then
    RiskLevel.critical
  else if 6/100 ≤ absSpread then RiskLevel.danger
  else if 5/100 ≤ absSpread then RiskLevel.warning
  else if isLockWindow = true ∧ 4/100 ≤ absSpread then RiskLevel.warning
  else RiskLevel.safe

/-- The `{ warning; danger; critical }` thresholds record of the
parameterized classifier variant. -/
structure Thresholds where
  warning : ℚ
  danger : ℚ
  critical : ℚ
deriving DecidableEq, Repr

namespace GapVariant

/-- `calculateRiskLevel` of the second `rateUtils` variant: it takes the
thresholds as a parameter and compares the signed gap
`platformRate - marketRate` with `≤` against each threshold. -/
def calculateRiskLevel (marketRate platformRate : ℚ) (isLockWindow : Bool)
    (consecutiveExpansions : ℕ) (thresholds : Thresholds) : RiskLevel :=
  let gap := platformRate - marketRate
  if gap ≤ thresholds.critical then RiskLevel.critical
  else if isLockWindow = true ∧ 2 ≤ consecutiveExpansions ∧ gap ≤ thresholds.warning then
    RiskLevel.critical
  else if gap ≤ thresholds.danger then RiskLevel.danger
  else if gap ≤ thresholds.warning then RiskLevel.warning
  else RiskLevel.safe

end GapVariant

/-- `fetchUSDTMYRRate` of `rateApi.ts`, abstracted over the outcome of each
source's `fetch()`: the loop keeps the last error in `lastError` and returns
the first successful rate; after the loop it throws
`lastError || new Error('All rate sources failed')`. -/
def fetchUSDTMYRRateAux : List (Except String ℚ) → Option String → Except String ℚ
  | [], lastError => Except.error (lastError.getD "All rate sources failed")
  | Except.ok rate :: _, _ => Except.ok rate
  | Except.error e :: rest, _ => fetchUSDTMYRRateAux rest (some e)

/-- The aggregated fetch: try the sources in their fixed order with
`lastError` initially `null`. -/
def fetchUSDTMYRRate (results : List (Except String ℚ)) : Except String ℚ :=
  fetchUSDTMYRRateAux results none

/-- `RateRecord` of `rateStore.ts`. -/
structure RateRecord where
  timestamp : ℤ
  marketRate : ℚ
  platformRate : ℚ
  diff : ℚ
  riskLevel : RiskLevel
deriving DecidableEq, Repr

/-- `DailyStats` of `rateStore.ts` (`lockTimeRate?` is optional). -/
structure DailyStats where
  date : String
  maxDiff : ℚ
  minDiff : ℚ
  avgDiff : ℚ
  maxMarketRate : ℚ
  minMarketRate : ℚ
  avgMarketRate : ℚ
  platformRate : ℚ
  riskLevel : RiskLevel
  lockTimeRate : Option ℚ
deriving DecidableEq, Repr

/-- One week in milliseconds: `7 * 24 * 60 * 60 * 1000`. -/
def sevenDaysMs : ℤ := 7 * 24 * 60 * 60 * 1000

/-- `addRateRecord` of the store: drop every record with
`timestamp ≤ Date.now() - 7d` (the filter keeps `r.timestamp > sevenDaysAgo`),
then append the new record. -/
def addRateRecord (now : ℤ) (history : List RateRecord) (record : RateRecord) :
    List RateRecord :=
  let sevenDaysAgo := now - sevenDaysMs
  history.filter (fun r => sevenDaysAgo < r.timestamp) ++ [record]

/-- `Number(x.toFixed(4))`: round to four decimal places
(`round q = ⌊q + 1/2⌋`, matching `toFixed` away from representation edge
cases, which the claims do not exercise). -/
def round4 (x : ℚ) : ℚ := (⌊x * 10000 + 1/2⌋ : ℚ) / 10000

/-- The mutable core state that a fetch cycle touches: the store fields
(`marketRate`, `platformRate`, `lastUpdated`, `rateHistory`, `dailyStats`,
`consecutiveExpansions`) plus the hook-local `previousDiff` and the
user-visible `error` message. -/
structure CoreState where
  marketRate : ℚ
  platformRate : ℚ
  lastUpdated : ℤ
  rateHistory : List RateRecord
  dailyStats : List DailyStats
  consecutiveExpansions : ℕ
  previousDiff : Option ℚ
  errorMsg : Option String
deriving DecidableEq, Repr

/-- One fetch cycle (`fetchRate` of `useRateFetcher.ts`), abstracted over the
aggregated fetch outcome, the clock and the lock-window flag.  On failure only
the error message changes.  On success: publish the rate, compare
`|diff|` with `|previousDiff|` to advance the expansion counter, compute the
risk level from the pre-update counter (the destructured `consecutiveExpansions`
of the closure), then append a record unless both rates are unchanged at four
decimal places. -/
def fetchRate (result : Except String ℚ) (now : ℤ) (isLockWindow : Bool)
    (s : CoreState) : CoreState :=
  match result with
  | Except.error e => { s with errorMsg := some e }
  | Except.ok rate =>
      let diff := s.platformRate - rate
      let newExpansions : ℕ :=
        match s.previousDiff with
        | none => s.consecutiveExpansions
        | some prev =>
            if mathAbs prev < mathAbs diff then s.consecutiveExpansions + 1 else 0
      let riskLevel := calculateRiskLevel diff isLockWindow s.consecutiveExpansions
      let lastRecord := s.rateHistory.getLast?
      let changed : Bool :=
        match lastRecord with
        | none => true
        | some last =>
            !(round4 last.marketRate == round4 rate) ||
              !(round4 last.platformRate == round4 s.platformRate)
      let newHistory :=
        if changed then
          addRateRecord now s.rateHistory
            { timestamp := now, marketRate := rate, platformRate := s.platformRate,
              diff := diff, riskLevel := riskLevel }
        else s.rateHistory
      { s with marketRate := rate, lastUpdated := now, errorMsg := none,
               consecutiveExpansions := newExpansions, previousDiff := some diff,
               rateHistory := newHistory }

/-- `diff` as the current-rate display card computes it
(`const diff = marketRate - platformRate` in `CurrentRateCard`). -/
def cardDiff (marketRate platformRate : ℚ) : ℚ := marketRate - platformRate

/-- `diff` as the alert banner computes it
(`const diff = platformRate - marketRate` in `AlertBanner`). -/
def bannerDiff (marketRate platformRate : ℚ) : ℚ := platformRate - marketRate

/-- `new Date(ts).getHours()` for a runtime whose local timezone is `tz`
milliseconds ahead of UTC: the hour of day, via floor division on the shifted
epoch time. -/
def localHour (tz ts : ℤ) : ℤ := (Int.fdiv (ts + tz) 3600000) % 24

/-- `new Date(ts).getMinutes()` for a runtime whose local timezone is `tz`
milliseconds ahead of UTC. -/
def localMinute (tz ts : ℤ) : ℤ := (Int.fdiv (ts + tz) 60000) % 60

/-- The rollup's lock-time test on a record's timestamp:
`hour === 23 && minute >= 45 && minute <= 55`. -/
def isLockTime (tz ts : ℤ) : Bool :=
  decide (localHour tz ts = 23) && decide (45 ≤ localMinute tz ts) &&
    decide (localMinute tz ts ≤ 55)

/-- The `statsByDate.set(dateKey, {...})` initializer of the rollup in
`HistoryTable.tsx`: the first record of a date seeds every field and leaves
`lockTimeRate` undefined.  Note that the initializer performs no lock-time
check on this first record. -/
def initStats (dateKey : String) (r : RateRecord) : DailyStats :=
  { date := dateKey
    maxDiff := r.diff
    minDiff := r.diff
    avgDiff := r.diff
    maxMarketRate := r.marketRate
    minMarketRate := r.marketRate
    avgMarketRate := r.marketRate
    platformRate := r.platformRate
    riskLevel := r.riskLevel
    lockTimeRate := none }

/-- The `else` branch of the rollup: update min/max, capture the lock-time
rate when the record's local time is in 23:45–23:55, and escalate the risk
level when the record's is ordinally higher. -/
def updateStats (tz : ℤ) (stats : DailyStats) (r : RateRecord) : DailyStats :=
  let s1 := { stats with
    maxDiff := max stats.maxDiff r.diff
    minDiff := min stats.minDiff r.diff
    maxMarketRate := max stats.maxMarketRate r.marketRate
    minMarketRate := min stats.minMarketRate r.marketRate }
  let s2 :=
    if isLockTime tz r.timestamp then { s1 with lockTimeRate := some r.marketRate }
    else s1
  if riskOrder s2.riskLevel < riskOrder r.riskLevel then
    { s2 with riskLevel := r.riskLevel }
  else s2

/-- The per-date part of the `dailyStats` `useMemo` of `HistoryTable.tsx`,
applied to the records of one calendar date in array order (`r` is the first
record of the date, `rs` the rest): seed from the first record, fold the
update over the rest, then recompute the two average fields over all of the
date's records. -/
def rollupDay (tz : ℤ) (dateKey : String) (r : RateRecord)
    (rs : List RateRecord) : DailyStats :=
  let base := rs.foldl (updateStats tz) (initStats dateKey r)
  let records := r :: rs
  let n : ℚ := (records.length : ℚ)
  { base with
    avgDiff := (records.map RateRecord.diff).sum / n
    avgMarketRate := (records.map RateRecord.marketRate).sum / n }

/-- Initial state of the concrete expansion-tracker run: default platform rate
4.35, no reading yet. -/
def c5State0 : CoreState :=
  { marketRate := 0, platformRate := 87/20, lastUpdated := 0, rateHistory := [],
    dailyStats := [], consecutiveExpansions := 0, previousDiff := none,
    errorMsg := none }

/-- First fetched rate 4.34: absolute spread 0.01. -/
def c5State1 : CoreState := fetchRate (Except.ok (434/100)) 1 false c5State0

/-- Second fetched rate 4.33: absolute spread 0.02. -/
def c5State2 : CoreState := fetchRate (Except.ok (433/100)) 2 false c5State1

/-- Third fetched rate 4.32: absolute spread 0.03. -/
def c5State3 : CoreState := fetchRate (Except.ok (432/100)) 3 false c5State2

/-- Fourth fetched rate 4.33: absolute spread 0.02 again. -/
def c5State4 : CoreState := fetchRate (Except.ok (433/100)) 4 false c5State3

/-- A sample stale record (timestamp 0). -/
def c6oldRecord : RateRecord :=
  { timestamp := 0, marketRate := 4, platformRate := 87/20, diff := 7/20,
    riskLevel := RiskLevel.critical }

/-- A sample fresh record at time 700000000 ms. -/
def c6newRecord : RateRecord :=
  { timestamp := 700000000, marketRate := 22/5, platformRate := 87/20,
    diff := -(1/20), riskLevel := RiskLevel.warning }

/-- The value held by the rollup's `lockTimeRate` slot after a run of
capture opportunities: the last captured market rate, if any, else the
incoming value. -/
def lastCaptured (l : List ℚ) (cur : Option ℚ) : Option ℚ :=
  match l.getLast? with
  | some m => some m
  | none => cur

/-- Record 1 of the concrete rollup example: diff 0.01. -/
def c7rec1 : RateRecord :=
  { timestamp := 0, marketRate := 434/100, platformRate := 435/100, diff := 1/100,
    riskLevel := RiskLevel.safe }

/-- Record 2 of the concrete rollup example: diff 0.05. -/
def c7rec2 : RateRecord :=
  { timestamp := 1000, marketRate := 430/100, platformRate := 435/100, diff := 5/100,
    riskLevel := RiskLevel.warning }

/-- Record 3 of the concrete rollup example: diff −0.02. -/
def c7rec3 : RateRecord :=
  { timestamp := 2000, marketRate := 437/100, platformRate := 435/100,
    diff := -(2/100), riskLevel := RiskLevel.safe }

/-- A record whose local time (UTC runtime) is 23:50:00 of day one. -/
def c8record : RateRecord :=
  { timestamp := 85800000, marketRate := 441/100, platformRate := 435/100,
    diff := -(6/100), riskLevel := RiskLevel.danger }

/-- The state before the fetch cycle used to exhibit the sign conventions:
platform rate 4.35, no prior reading, empty history. -/
def c9State : CoreState :=
  { marketRate := 0, platformRate := 87/20, lastUpdated := 0, rateHistory := [],
    dailyStats := [], consecutiveExpansions := 0, previousDiff := none,
    errorMsg := none }

/-- The record the concrete cycle of `record_diff_sign_refuted` appends. -/
def c9newRecord : RateRecord :=
  { timestamp := 5, marketRate := 22/5, platformRate := 87/20,
    diff := 87/20 - 22/5,
    riskLevel := calculateRiskLevel (87/20 - 22/5) false 0 }

/-! ## Theorems -/

theorem mathAbs_eq_abs (x : ℚ) : mathAbs x = |x| := by
  unfold mathAbs
  rcases lt_or_le x 0 with h | h
  · rw [if_pos h, abs_of_neg h]
  · rw [if_neg (not_lt.mpr h), abs_of_nonneg h]

theorem mathAbs_neg (x : ℚ) : mathAbs (-x) = mathAbs x := by
  rw [mathAbs_eq_abs, mathAbs_eq_abs, abs_neg]

/-- C1 (counterexample): with the claimed default thresholds
{warning 0.05, danger 0.08, critical 0.10} the claim expects spread 0.08 to be
classified `danger`, but the parameterless classifier hardcodes critical at
0.08 and returns `critical` there; and the parameterized gap variant, fed
those thresholds, classifies the 0.04-gap case `critical` rather than `safe`
because it compares the signed gap with `≤`. -/
theorem riskLevel_claimed_defaults_refuted :
    calculateRiskLevel (8/100) false 0 = RiskLevel.critical ∧
    RiskLevel.critical ≠ RiskLevel.danger ∧
    GapVariant.calculateRiskLevel (431/100) (435/100) false 0 ⟨5/100, 8/100, 1/10⟩ =
      RiskLevel.critical ∧
    RiskLevel.critical ≠ RiskLevel.safe := by
  refine ⟨?_, by decide, ?_, by decide⟩
  · norm_num [calculateRiskLevel, mathAbs]
  · norm_num [GapVariant.calculateRiskLevel]

/-- C1 (amended): the parameterless classifier hardcodes the thresholds
warning 0.05, danger 0.06, critical 0.08; outside the lock window with no
consecutive expansions it compares the absolute spread in first-match-wins
order, giving safe at 0.04, warning at 0.05, danger at 0.06 and critical at
0.08. -/
theorem riskLevel_hardcoded_thresholds :
    calculateRiskLevel (4/100) false 0 = RiskLevel.safe ∧
    calculateRiskLevel (5/100) false 0 = RiskLevel.warning ∧
    calculateRiskLevel (6/100) false 0 = RiskLevel.danger ∧
    calculateRiskLevel (8/100) false 0 = RiskLevel.critical ∧
    (∀ d : ℚ, calculateRiskLevel d false 0 =
      if 8/100 ≤ |d| then RiskLevel.critical
      else if 6/100 ≤ |d| then RiskLevel.danger
      else if 5/100 ≤ |d| then RiskLevel.warning
      else RiskLevel.safe) := by
  refine ⟨?_, ?_, ?_, ?_, ?_⟩
  · norm_num [calculateRiskLevel, mathAbs]
  · norm_num [calculateRiskLevel, mathAbs]
  · norm_num [calculateRiskLevel, mathAbs]
  · norm_num [calculateRiskLevel, mathAbs]
  · intro d
    simp [calculateRiskLevel, mathAbs_eq_abs]

/-- C2: in the lock window with at least two consecutive expansions, every
spread whose magnitude is at least the warning threshold (0.05) and below the
critical threshold (0.08) escalates to critical; concretely spread 0.045 with
two expansions in the lock window is critical (the escalation floor in the
code is 0.04). -/
theorem lock_window_escalation :
    (∀ (d : ℚ) (n : ℕ), 2 ≤ n → 5/100 ≤ |d| → |d| < 8/100 →
      calculateRiskLevel d true n = RiskLevel.critical) ∧
    calculateRiskLevel (45/1000) true 2 = RiskLevel.critical := by
  constructor
  · intro d n hn h5 h8
    simp only [calculateRiskLevel, mathAbs_eq_abs]
    rw [if_neg (not_le.mpr h8), if_pos ⟨trivial, hn, le_trans (by norm_num) h5⟩]
  · norm_num [calculateRiskLevel, mathAbs]

/-- C2 (witness): spread 0.06 in the lock window after three expansions. -/
theorem lock_window_escalation_witness :
    calculateRiskLevel (6/100) true 3 = RiskLevel.critical :=
  lock_window_escalation.1 (6/100) 3 (by norm_num) (by rw [abs_of_nonneg] <;> norm_num)
    (by rw [abs_of_nonneg] <;> norm_num)

/-- C4: a failed fetch cycle mutates none of the core state: market rate,
history, daily stats, the expansion counter and the tracked previous spread
are untouched. -/
theorem failed_fetch_preserves_state (e : String) (now : ℤ) (isLockWindow : Bool)
    (s : CoreState) :
    (fetchRate (Except.error e) now isLockWindow s).marketRate = s.marketRate ∧
    (fetchRate (Except.error e) now isLockWindow s).rateHistory = s.rateHistory ∧
    (fetchRate (Except.error e) now isLockWindow s).dailyStats = s.dailyStats ∧
    (fetchRate (Except.error e) now isLockWindow s).consecutiveExpansions =
      s.consecutiveExpansions ∧
    (fetchRate (Except.error e) now isLockWindow s).previousDiff = s.previousDiff :=
  ⟨rfl, rfl, rfl, rfl, rfl⟩

/-- C10: the parameterless classifier depends only on the absolute value of
the spread, so negating the spread never changes the risk level. -/
theorem riskLevel_sign_invariant (d : ℚ) (isLockWindow : Bool) (n : ℕ) :
    calculateRiskLevel d isLockWindow n = calculateRiskLevel (-d) isLockWindow n := by
  simp [calculateRiskLevel, mathAbs_neg]

theorem fetchAux_all_errors_last (es : List String) (e : String) :
    ∀ acc, fetchUSDTMYRRateAux ((es ++ [e]).map Except.error) acc = Except.error e := by
  induction es with
  | nil => intro acc; rfl
  | cons x xs ih => intro acc; simpa [fetchUSDTMYRRateAux] using ih (some x)

theorem fetchAux_error_of_result (results : List (Except String ℚ)) :
    ∀ acc e, fetchUSDTMYRRateAux results acc = Except.error e →
      ∀ x ∈ results, ∃ msg, x = Except.error msg := by
  induction results with
  | nil => intro acc e _ x hx; exact absurd hx (List.not_mem_nil x)
  | cons y ys ih =>
      intro acc e h x hx
      match y with
      | Except.ok r => exact absurd h (by simp [fetchUSDTMYRRateAux])
      | Except.error msg =>
          rcases List.mem_cons.mp hx with hx | hx
          · exact ⟨msg, hx⟩
          · exact ih (some msg) e (by simpa [fetchUSDTMYRRateAux] using h) x hx

theorem fetchAux_first_ok (pre : List (Except String ℚ)) (r : ℚ)
    (post : List (Except String ℚ)) :
    ∀ acc, (∀ x ∈ pre, ∃ msg, x = Except.error msg) →
      fetchUSDTMYRRateAux (pre ++ Except.ok r :: post) acc = Except.ok r := by
  induction pre with
  | nil => intro acc _; rfl
  | cons y ys ih =>
      intro acc hall
      obtain ⟨msg, rfl⟩ := hall y (List.mem_cons_self y ys)
      simpa [fetchUSDTMYRRateAux] using
        ih (some msg) (fun x hx => hall x (List.mem_cons_of_mem _ hx))

/-- C3: the aggregated fetch returns the first source's successful rate, never
consulting any later source (the sources after the first success are
arbitrary); when every source fails it fails with the last source's error; and
it can only fail when every source failed. -/
theorem fetch_first_success_wins :
    (∀ (pre : List (Except String ℚ)) (r : ℚ) (post : List (Except String ℚ)),
      (∀ x ∈ pre, ∃ msg, x = Except.error msg) →
      fetchUSDTMYRRate (pre ++ Except.ok r :: post) = Except.ok r) ∧
    (∀ (es : List String) (e : String),
      fetchUSDTMYRRate ((es ++ [e]).map Except.error) = Except.error e) ∧
    (∀ (results : List (Except String ℚ)) (e : String),
      fetchUSDTMYRRate results = Except.error e →
      ∀ x ∈ results, ∃ msg, x = Except.error msg) :=
  ⟨fun pre r post h => fetchAux_first_ok pre r post none h,
   fun es e => fetchAux_all_errors_last es e none,
   fun results e h => fetchAux_error_of_result results none e h⟩

/-- C3 (witness): one failing source followed by a success and one more
source: the aggregate is the first success. -/
theorem fetch_first_success_wins_witness :
    fetchUSDTMYRRate
        [Except.error "down", Except.ok (435/100), Except.error "later"] =
      Except.ok (435/100) :=
  fetch_first_success_wins.1 [Except.error "down"] (435/100) [Except.error "later"]
    (by intro x hx; rw [List.mem_singleton] at hx; exact ⟨"down", hx⟩)

/-- C5: on a successful cycle with a previous spread on file, the counter
increments exactly when the new absolute spread strictly exceeds the previous
one and resets to 0 otherwise; the first reading leaves the counter untouched;
and the absolute-spread run [0.01, 0.02, 0.03, 0.02] produces the counter run
[0, 1, 2, 0]. -/
theorem expansion_counter_rule :
    (∀ (rate : ℚ) (now : ℤ) (w : Bool) (s : CoreState) (prev : ℚ),
      s.previousDiff = some prev →
      (fetchRate (Except.ok rate) now w s).consecutiveExpansions =
        if |prev| < |s.platformRate - rate| then s.consecutiveExpansions + 1
        else 0) ∧
    (∀ (rate : ℚ) (now : ℤ) (w : Bool) (s : CoreState),
      s.previousDiff = none →
      (fetchRate (Except.ok rate) now w s).consecutiveExpansions =
        s.consecutiveExpansions) ∧
    (c5State1.consecutiveExpansions = 0 ∧ c5State2.consecutiveExpansions = 1 ∧
      c5State3.consecutiveExpansions = 2 ∧ c5State4.consecutiveExpansions = 0) := by
  refine ⟨?_, ?_, ?_, ?_, ?_, ?_⟩
  · intro rate now w s prev h
    simp [fetchRate, h, mathAbs_eq_abs]
  · intro rate now w s h
    simp [fetchRate, h]
  · simp [c5State1, c5State0, fetchRate]
  · norm_num [c5State2, c5State1, c5State0, fetchRate, mathAbs]
  · norm_num [c5State3, c5State2, c5State1, c5State0, fetchRate, mathAbs]
  · norm_num [c5State4, c5State3, c5State2, c5State1, c5State0, fetchRate, mathAbs]

/-- C5 (witness): the increment rule applied to the concrete second cycle. -/
theorem expansion_counter_rule_witness :
    c5State2.consecutiveExpansions =
      if |c5State0.platformRate - 434/100| < |c5State1.platformRate - 433/100| then
        c5State1.consecutiveExpansions + 1
      else 0 :=
  expansion_counter_rule.1 (433/100) 2 false c5State1 _ rfl

/-- C6: appending to the history first prunes every record dated at or before
`now − 7d` and then adds the new record: provided the new record itself is
inside the window, every retained record is strictly inside the trailing
7-day window, the new record is present, and every in-window record of the
old history survives. -/
theorem append_prunes_window (now : ℤ) (history : List RateRecord)
    (record : RateRecord) (h : now - sevenDaysMs < record.timestamp) :
    record ∈ addRateRecord now history record ∧
    (∀ r ∈ addRateRecord now history record, now - sevenDaysMs < r.timestamp) ∧
    (∀ r ∈ history, now - sevenDaysMs < r.timestamp →
      r ∈ addRateRecord now history record) := by
  unfold addRateRecord
  refine ⟨List.mem_append_right _ (List.mem_singleton_self _), ?_, ?_⟩
  · intro r hr
    rcases List.mem_append.mp hr with hr | hr
    · have := (List.mem_filter.mp hr).2
      simpa using this
    · rw [List.mem_singleton] at hr
      rwa [hr]
  · intro r hr hwin
    exact List.mem_append_left _ (List.mem_filter.mpr ⟨hr, by simpa using hwin⟩)

/-- C6 (witness): the fresh record is present after an append at its own
timestamp. -/
theorem append_prunes_window_witness :
    c6newRecord ∈ addRateRecord 700000000 [c6oldRecord] c6newRecord :=
  (append_prunes_window 700000000 [c6oldRecord] c6newRecord
    (by norm_num [c6newRecord, sevenDaysMs])).1

theorem updateStats_maxDiff (tz : ℤ) (s : DailyStats) (r : RateRecord) :
    (updateStats tz s r).maxDiff = max s.maxDiff r.diff := by
  simp only [updateStats]
  split <;> split <;> rfl

theorem updateStats_minDiff (tz : ℤ) (s : DailyStats) (r : RateRecord) :
    (updateStats tz s r).minDiff = min s.minDiff r.diff := by
  simp only [updateStats]
  split <;> split <;> rfl

theorem updateStats_maxMarketRate (tz : ℤ) (s : DailyStats) (r : RateRecord) :
    (updateStats tz s r).maxMarketRate = max s.maxMarketRate r.marketRate := by
  simp only [updateStats]
  split <;> split <;> rfl

theorem updateStats_minMarketRate (tz : ℤ) (s : DailyStats) (r : RateRecord) :
    (updateStats tz s r).minMarketRate = min s.minMarketRate r.marketRate := by
  simp only [updateStats]
  split <;> split <;> rfl

theorem updateStats_riskLevel (tz : ℤ) (s : DailyStats) (r : RateRecord) :
    (updateStats tz s r).riskLevel =
      if riskOrder s.riskLevel < riskOrder r.riskLevel then r.riskLevel
      else s.riskLevel := by
  simp only [updateStats]
  split <;> split <;> simp_all

theorem updateStats_lockTimeRate (tz : ℤ) (s : DailyStats) (r : RateRecord) :
    (updateStats tz s r).lockTimeRate =
      if isLockTime tz r.timestamp then some r.marketRate else s.lockTimeRate := by
  simp only [updateStats]
  split <;> split <;> simp_all

theorem foldl_updateStats_maxDiff (tz : ℤ) (rs : List RateRecord) :
    ∀ s : DailyStats,
      (rs.foldl (updateStats tz) s).maxDiff =
        (rs.map RateRecord.diff).foldl max s.maxDiff := by
  induction rs with
  | nil => intro s; rfl
  | cons r rest ih =>
      intro s
      rw [List.foldl_cons, List.map_cons, List.foldl_cons, ih, updateStats_maxDiff]

theorem foldl_updateStats_minDiff (tz : ℤ) (rs : List RateRecord) :
    ∀ s : DailyStats,
      (rs.foldl (updateStats tz) s).minDiff =
        (rs.map RateRecord.diff).foldl min s.minDiff := by
  induction rs with
  | nil => intro s; rfl
  | cons r rest ih =>
      intro s
      rw [List.foldl_cons, List.map_cons, List.foldl_cons, ih, updateStats_minDiff]

theorem foldl_updateStats_maxMarketRate (tz : ℤ) (rs : List RateRecord) :
    ∀ s : DailyStats,
      (rs.foldl (updateStats tz) s).maxMarketRate =
        (rs.map RateRecord.marketRate).foldl max s.maxMarketRate := by
  induction rs with
  | nil => intro s; rfl
  | cons r rest ih =>
      intro s
      rw [List.foldl_cons, List.map_cons, List.foldl_cons, ih,
        updateStats_maxMarketRate]

theorem foldl_updateStats_minMarketRate (tz : ℤ) (rs : List RateRecord) :
    ∀ s : DailyStats,
      (rs.foldl (updateStats tz) s).minMarketRate =
        (rs.map RateRecord.marketRate).foldl min s.minMarketRate := by
  induction rs with
  | nil => intro s; rfl
  | cons r rest ih =>
      intro s
      rw [List.foldl_cons, List.map_cons, List.foldl_cons, ih,
        updateStats_minMarketRate]

theorem foldl_max_le_init (l : List ℚ) : ∀ a : ℚ, a ≤ l.foldl max a := by
  induction l with
  | nil => intro a; exact le_refl a
  | cons x t ih => intro a; exact le_trans (le_max_left a x) (ih (max a x))

theorem foldl_max_le_mem (l : List ℚ) : ∀ a : ℚ, ∀ x ∈ l, x ≤ l.foldl max a := by
  induction l with
  | nil => intro a x hx; exact absurd hx (List.not_mem_nil x)
  | cons y t ih =>
      intro a x hx
      rcases List.mem_cons.mp hx with hx | hx
      · subst hx
        exact le_trans (le_max_right a x) (foldl_max_le_init t (max a x))
      · exact ih (max a y) x hx

theorem foldl_max_choice (l : List ℚ) :
    ∀ a : ℚ, l.foldl max a = a ∨ l.foldl max a ∈ l := by
  induction l with
  | nil => intro a; exact Or.inl rfl
  | cons x t ih =>
      intro a
      rcases ih (max a x) with h | h
      · rw [List.foldl_cons, h]
        rcases max_choice a x with h2 | h2
        · exact Or.inl h2
        · exact Or.inr (by rw [h2]; exact List.mem_cons_self x t)
      · exact Or.inr (List.mem_cons_of_mem x h)

theorem foldl_min_le_init (l : List ℚ) : ∀ a : ℚ, l.foldl min a ≤ a := by
  induction l with
  | nil => intro a; exact le_refl a
  | cons x t ih => intro a; exact le_trans (ih (min a x)) (min_le_left a x)

theorem foldl_min_le_mem (l : List ℚ) : ∀ a : ℚ, ∀ x ∈ l, l.foldl min a ≤ x := by
  induction l with
  | nil => intro a x hx; exact absurd hx (List.not_mem_nil x)
  | cons y t ih =>
      intro a x hx
      rcases List.mem_cons.mp hx with hx | hx
      · subst hx
        exact le_trans (foldl_min_le_init t (min a x)) (min_le_right a x)
      · exact ih (min a y) x hx

theorem foldl_min_choice (l : List ℚ) :
    ∀ a : ℚ, l.foldl min a = a ∨ l.foldl min a ∈ l := by
  induction l with
  | nil => intro a; exact Or.inl rfl
  | cons x t ih =>
      intro a
      rcases ih (min a x) with h | h
      · rw [List.foldl_cons, h]
        rcases min_choice a x with h2 | h2
        · exact Or.inl h2
        · exact Or.inr (by rw [h2]; exact List.mem_cons_self x t)
      · exact Or.inr (List.mem_cons_of_mem x h)

theorem foldl_updateStats_riskLevel (tz : ℤ) (rs : List RateRecord) :
    ∀ s : DailyStats,
      (rs.foldl (updateStats tz) s).riskLevel =
        rs.foldl
          (fun a r => if riskOrder a < riskOrder r.riskLevel then r.riskLevel else a)
          s.riskLevel := by
  induction rs with
  | nil => intro s; rfl
  | cons r rest ih =>
      intro s
      rw [List.foldl_cons, List.foldl_cons, ih, updateStats_riskLevel]

theorem foldl_risk_le_init (rs : List RateRecord) :
    ∀ a : RiskLevel,
      riskOrder a ≤
        riskOrder (rs.foldl
          (fun a r => if riskOrder a < riskOrder r.riskLevel then r.riskLevel else a)
          a) := by
  induction rs with
  | nil => intro a; exact le_refl _
  | cons r rest ih =>
      intro a
      rw [List.foldl_cons]
      refine le_trans ?_ (ih _)
      split
      · exact le_of_lt (by assumption)
      · exact le_refl _

theorem foldl_risk_le_mem (rs : List RateRecord) :
    ∀ a : RiskLevel, ∀ r ∈ rs,
      riskOrder r.riskLevel ≤
        riskOrder (rs.foldl
          (fun a r => if riskOrder a < riskOrder r.riskLevel then r.riskLevel else a)
          a) := by
  induction rs with
  | nil => intro a r hr; exact absurd hr (List.not_mem_nil r)
  | cons x rest ih =>
      intro a r hr
      rcases List.mem_cons.mp hr with hr | hr
      · subst hr
        rw [List.foldl_cons]
        refine le_trans ?_ (foldl_risk_le_init rest _)
        split
        · exact le_refl _
        · exact le_of_not_lt (by assumption)
      · exact ih _ r hr

theorem foldl_risk_choice (rs : List RateRecord) :
    ∀ a : RiskLevel,
      (rs.foldl
          (fun a r => if riskOrder a < riskOrder r.riskLevel then r.riskLevel else a)
          a) = a ∨
        ∃ r ∈ rs,
          (rs.foldl
            (fun a r => if riskOrder a < riskOrder r.riskLevel then r.riskLevel else a)
            a) = r.riskLevel := by
  induction rs with
  | nil => intro a; exact Or.inl rfl
  | cons x rest ih =>
      intro a
      rw [List.foldl_cons]
      rcases ih (if riskOrder a < riskOrder x.riskLevel then x.riskLevel else a) with
        h | ⟨r, hr, h⟩
      · rw [h]
        split
        · exact Or.inr ⟨x, List.mem_cons_self x rest, rfl⟩
        · exact Or.inl rfl
      · exact Or.inr ⟨r, List.mem_cons_of_mem x hr, h⟩

theorem lastCaptured_cons (x : ℚ) (l : List ℚ) (cur : Option ℚ) :
    lastCaptured (x :: l) cur = lastCaptured l (some x) := by
  cases l with
  | nil => rfl
  | cons y t =>
      simp only [lastCaptured, List.getLast?_cons_cons]
      cases h : (y :: t).getLast? with
      | none => exact absurd h (by simp)
      | some m => rfl

theorem lastCaptured_none (l : List ℚ) : lastCaptured l none = l.getLast? := by
  cases h : l.getLast? <;> simp [lastCaptured, h]

theorem foldl_updateStats_lockTimeRate (tz : ℤ) (rs : List RateRecord) :
    ∀ s : DailyStats,
      (rs.foldl (updateStats tz) s).lockTimeRate =
        lastCaptured
          ((rs.filter (fun r => isLockTime tz r.timestamp)).map RateRecord.marketRate)
          s.lockTimeRate := by
  induction rs with
  | nil => intro s; rfl
  | cons r rest ih =>
      intro s
      rw [List.foldl_cons, ih, updateStats_lockTimeRate]
      by_cases h : isLockTime tz r.timestamp
      · rw [if_pos h, List.filter_cons_of_pos (by simpa using h), List.map_cons,
          lastCaptured_cons]
      · rw [if_neg h, List.filter_cons_of_neg (by simpa using h)]

theorem rollupDay_maxDiff (tz : ℤ) (k : String) (r : RateRecord)
    (rs : List RateRecord) :
    (rollupDay tz k r rs).maxDiff = (rs.map RateRecord.diff).foldl max r.diff := by
  show (rs.foldl (updateStats tz) (initStats k r)).maxDiff = _
  rw [foldl_updateStats_maxDiff]
  rfl

theorem rollupDay_minDiff (tz : ℤ) (k : String) (r : RateRecord)
    (rs : List RateRecord) :
    (rollupDay tz k r rs).minDiff = (rs.map RateRecord.diff).foldl min r.diff := by
  show (rs.foldl (updateStats tz) (initStats k r)).minDiff = _
  rw [foldl_updateStats_minDiff]
  rfl

theorem rollupDay_maxMarketRate (tz : ℤ) (k : String) (r : RateRecord)
    (rs : List RateRecord) :
    (rollupDay tz k r rs).maxMarketRate =
      (rs.map RateRecord.marketRate).foldl max r.marketRate := by
  show (rs.foldl (updateStats tz) (initStats k r)).maxMarketRate = _
  rw [foldl_updateStats_maxMarketRate]
  rfl

theorem rollupDay_minMarketRate (tz : ℤ) (k : String) (r : RateRecord)
    (rs : List RateRecord) :
    (rollupDay tz k r rs).minMarketRate =
      (rs.map RateRecord.marketRate).foldl min r.marketRate := by
  show (rs.foldl (updateStats tz) (initStats k r)).minMarketRate = _
  rw [foldl_updateStats_minMarketRate]
  rfl

theorem rollupDay_riskLevel (tz : ℤ) (k : String) (r : RateRecord)
    (rs : List RateRecord) :
    (rollupDay tz k r rs).riskLevel =
      rs.foldl
        (fun a rec => if riskOrder a < riskOrder rec.riskLevel then rec.riskLevel else a)
        r.riskLevel := by
  show (rs.foldl (updateStats tz) (initStats k r)).riskLevel = _
  rw [foldl_updateStats_riskLevel]
  rfl

/-- C7: over the records of one date the rollup keeps `maxDiff`/`minDiff` and
`maxMarketRate`/`minMarketRate` as the attained max/min, recomputes both
average fields as the mean over all of the date's records, and its risk level
is the ordinally worst record level of the day (each update step never
downgrades it); the date with diffs [0.01, 0.05, −0.02] gets maxDiff 0.05,
minDiff −0.02 and avgDiff 4/300 (≈ 0.0133). -/
theorem daily_rollup_spec (tz : ℤ) (k : String) (r : RateRecord)
    (rs : List RateRecord) :
    ((rollupDay tz k r rs).maxDiff ∈ (r :: rs).map RateRecord.diff ∧
      ∀ d ∈ (r :: rs).map RateRecord.diff, d ≤ (rollupDay tz k r rs).maxDiff) ∧
    ((rollupDay tz k r rs).minDiff ∈ (r :: rs).map RateRecord.diff ∧
      ∀ d ∈ (r :: rs).map RateRecord.diff, (rollupDay tz k r rs).minDiff ≤ d) ∧
    ((rollupDay tz k r rs).maxMarketRate ∈ (r :: rs).map RateRecord.marketRate ∧
      ∀ m ∈ (r :: rs).map RateRecord.marketRate,
        m ≤ (rollupDay tz k r rs).maxMarketRate) ∧
    ((rollupDay tz k r rs).minMarketRate ∈ (r :: rs).map RateRecord.marketRate ∧
      ∀ m ∈ (r :: rs).map RateRecord.marketRate,
        (rollupDay tz k r rs).minMarketRate ≤ m) ∧
    (rollupDay tz k r rs).avgDiff =
      ((r :: rs).map RateRecord.diff).sum / ((r :: rs).length : ℚ) ∧
    (rollupDay tz k r rs).avgMarketRate =
      ((r :: rs).map RateRecord.marketRate).sum / ((r :: rs).length : ℚ) ∧
    (∀ rec ∈ r :: rs,
      riskOrder rec.riskLevel ≤ riskOrder (rollupDay tz k r rs).riskLevel) ∧
    (∃ rec ∈ r :: rs, (rollupDay tz k r rs).riskLevel = rec.riskLevel) ∧
    (∀ (s : DailyStats) (rec : RateRecord),
      riskOrder s.riskLevel ≤ riskOrder (updateStats tz s rec).riskLevel) ∧
    ((rollupDay 0 "1970-01-01" c7rec1 [c7rec2, c7rec3]).maxDiff = 5/100 ∧
      (rollupDay 0 "1970-01-01" c7rec1 [c7rec2, c7rec3]).minDiff = -(2/100) ∧
      (rollupDay 0 "1970-01-01" c7rec1 [c7rec2, c7rec3]).avgDiff = 4/300) := by
  refine ⟨⟨?_, ?_⟩, ⟨?_, ?_⟩, ⟨?_, ?_⟩, ⟨?_, ?_⟩, rfl, rfl, ?_, ?_, ?_, ?_, ?_, ?_⟩
  · rw [rollupDay_maxDiff, List.map_cons]
    rcases foldl_max_choice (rs.map RateRecord.diff) r.diff with h | h
    · rw [h]; exact List.mem_cons_self _ _
    · exact List.mem_cons_of_mem _ h
  · intro d hd
    rw [rollupDay_maxDiff]
    rw [List.map_cons] at hd
    rcases List.mem_cons.mp hd with hd | hd
    · rw [hd]; exact foldl_max_le_init _ _
    · exact foldl_max_le_mem _ _ d hd
  · rw [rollupDay_minDiff, List.map_cons]
    rcases foldl_min_choice (rs.map RateRecord.diff) r.diff with h | h
    · rw [h]; exact List.mem_cons_self _ _
    · exact List.mem_cons_of_mem _ h
  · intro d hd
    rw [rollupDay_minDiff]
    rw [List.map_cons] at hd
    rcases List.mem_cons.mp hd with hd | hd
    · rw [hd]; exact foldl_min_le_init _ _
    · exact foldl_min_le_mem _ _ d hd
  · rw [rollupDay_maxMarketRate, List.map_cons]
    rcases foldl_max_choice (rs.map RateRecord.marketRate) r.marketRate with h | h
    · rw [h]; exact List.mem_cons_self _ _
    · exact List.mem_cons_of_mem _ h
  · intro m hm
    rw [rollupDay_maxMarketRate]
    rw [List.map_cons] at hm
    rcases List.mem_cons.mp hm with hm | hm
    · rw [hm]; exact foldl_max_le_init _ _
    · exact foldl_max_le_mem _ _ m hm
  · rw [rollupDay_minMarketRate, List.map_cons]
    rcases foldl_min_choice (rs.map RateRecord.marketRate) r.marketRate with h | h
    · rw [h]; exact List.mem_cons_self _ _
    · exact List.mem_cons_of_mem _ h
  · intro m hm
    rw [rollupDay_minMarketRate]
    rw [List.map_cons] at hm
    rcases List.mem_cons.mp hm with hm | hm
    · rw [hm]; exact foldl_min_le_init _ _
    · exact foldl_min_le_mem _ _ m hm
  · intro rec hrec
    rw [rollupDay_riskLevel]
    rcases List.mem_cons.mp hrec with hrec | hrec
    · rw [hrec]; exact foldl_risk_le_init _ _
    · exact foldl_risk_le_mem _ _ rec hrec
  · rcases foldl_risk_choice rs r.riskLevel with h | ⟨rec, hrec, h⟩
    · exact ⟨r, List.mem_cons_self _ _, by rw [rollupDay_riskLevel, h]⟩
    · exact ⟨rec, List.mem_cons_of_mem _ hrec, by rw [rollupDay_riskLevel, h]⟩
  · intro s rec
    rw [updateStats_riskLevel]
    split
    · exact le_of_lt (by assumption)
    · exact le_refl _
  · rw [rollupDay_maxDiff]
    simp only [c7rec1, c7rec2, c7rec3, List.map_cons, List.map_nil,
      List.foldl_cons, List.foldl_nil]
    rw [max_def, max_def]
    norm_num
  · rw [rollupDay_minDiff]
    simp only [c7rec1, c7rec2, c7rec3, List.map_cons, List.map_nil,
      List.foldl_cons, List.foldl_nil]
    rw [min_def, min_def]
    norm_num
  · show ((c7rec1 :: [c7rec2, c7rec3]).map RateRecord.diff).sum /
      (((c7rec1 :: [c7rec2, c7rec3]).length : ℕ) : ℚ) = 4/300
    simp only [c7rec1, c7rec2, c7rec3, List.map_cons, List.map_nil, List.sum_cons,
      List.sum_nil, List.length_cons, List.length_nil]
    norm_num

/-- C7 (witness): in the concrete example, record 2's diff is bounded by the
day's `maxDiff`. -/
theorem daily_rollup_spec_witness :
    c7rec2.diff ≤ (rollupDay 0 "1970-01-01" c7rec1 [c7rec2, c7rec3]).maxDiff :=
  (daily_rollup_spec 0 "1970-01-01" c7rec1 [c7rec2, c7rec3]).1.2 c7rec2.diff
    (by simp)

/-- C8 (amended): the rollup's `lockTimeRate` for a date is the market rate of
the last record **after the first record of that date** whose local time falls
in 23:45–23:55; the lock-time check lives only in the `else` branch, so the
date's first record is never examined, and a date with no qualifying
non-first record keeps no `lockTimeRate`. -/
theorem rollup_lockTimeRate_rule (tz : ℤ) (k : String) (r : RateRecord)
    (rs : List RateRecord) :
    (rollupDay tz k r rs).lockTimeRate =
      ((rs.filter (fun rec => isLockTime tz rec.timestamp)).map
        RateRecord.marketRate).getLast? := by
  show (rs.foldl (updateStats tz) (initStats k r)).lockTimeRate = _
  rw [foldl_updateStats_lockTimeRate]
  simp only [initStats]
  exact lastCaptured_none _

/-- C8 (counterexample): a date whose only record falls at 23:50 — squarely in
the 23:45–23:55 window — ends with no `lockTimeRate` at all, because the
rollup's initializer branch never performs the lock-time check. -/
theorem rollup_lockTime_first_record_missed :
    isLockTime 0 c8record.timestamp = true ∧
    (rollupDay 0 "1970-01-01" c8record []).lockTimeRate = none ∧
    (rollupDay 0 "1970-01-01" c8record []).lockTimeRate ≠ some c8record.marketRate := by
  refine ⟨by decide, rfl, ?_⟩
  intro h
  exact Option.noConfusion h

/-- C9 (counterexample): fetching market rate 4.40 against platform rate 4.35
stores a record whose `diff` is −0.05 = platform − market, the **negation** of
market − platform (= +0.05); and the current-rate card and the alert banner
disagree on the sign for the same rates, so the deployment does not use one
sign convention. -/
theorem record_diff_sign_refuted :
    ((fetchRate (Except.ok (22/5)) 5 false c9State).rateHistory.getLast?.map
      RateRecord.diff) = some (-(1/20)) ∧
    (22/5 : ℚ) - 87/20 = 1/20 ∧
    (-(1/20) : ℚ) ≠ 1/20 ∧
    cardDiff (22/5) (87/20) = 1/20 ∧
    bannerDiff (22/5) (87/20) = -(1/20) ∧
    cardDiff (22/5) (87/20) ≠ bannerDiff (22/5) (87/20) := by
  refine ⟨?_, by norm_num, by norm_num, by norm_num [cardDiff],
    by norm_num [bannerDiff], by norm_num [cardDiff, bannerDiff]⟩
  norm_num [c9State, fetchRate, addRateRecord]

/-- C9 (amended): within this deployment the record creation path and the
alert banner both compute `diff = platformRate − marketRate` (every record a
successful cycle appends carries that diff), while the current-rate card
computes the opposite sign, `marketRate − platformRate`. -/
theorem record_diff_sign_convention :
    (∀ m p : ℚ, bannerDiff m p = p - m ∧ cardDiff m p = -(bannerDiff m p)) ∧
    (∀ (rate : ℚ) (now : ℤ) (w : Bool) (s : CoreState) (rec : RateRecord),
      rec ∈ (fetchRate (Except.ok rate) now w s).rateHistory →
      rec ∈ s.rateHistory ∨ rec.diff = s.platformRate - rate) := by
  constructor
  · intro m p
    constructor
    · rfl
    · show m - p = -(p - m)
      ring
  · intro rate now w s rec hrec
    simp only [fetchRate] at hrec
    split at hrec
    · rcases List.mem_append.mp hrec with h | h
      · exact Or.inl (List.mem_filter.mp h).1
      · rw [List.mem_singleton] at h
        exact Or.inr (by rw [h])
    · exact Or.inl hrec

/-- C9 (witness): the record appended by the concrete cycle satisfies the
platform − market convention. -/
theorem record_diff_sign_convention_witness :
    c9newRecord ∈ c9State.rateHistory ∨
    c9newRecord.diff = c9State.platformRate - 22/5 :=
  record_diff_sign_convention.2 (22/5) 5 false c9State c9newRecord (by
    simp [fetchRate, c9State, addRateRecord, c9newRecord])

